import Mathlib

/-!
Verification of the `LocatorService` dependency-injection container
(src/src/LocatorService.ts) of the veto-mvvm repository.

The container owns three key-to-provider mappings (`singletons`,
`lazySingletonFactories`, `factories`, each a JavaScript `Map` keyed by
string) and exposes `registerSingleton`, `registerLazySingleton`,
`registerFactory`, `get`, `isRegistered`, `unregister` and `reset`.

Embedding choices:
* A JavaScript `Map<string, A>` is embedded as an association list
  `List (String × A)` with unique keys (every reachable map is built by
  `mapSet` / `mapDelete` from the empty map, which keeps keys unique, so
  deleting all occurrences of a key coincides with `Map.delete`).
* Constructor functions (`() => T` in TypeScript) may have side effects and
  may throw, so they are embedded as `σ → Except E V × σ`: a state-passing
  function over an external world `σ` that either produces a value or
  throws an error `e : E`, in both cases advancing the world (each
  invocation is observable in `σ`, which lets us count invocations).
* Methods that mutate `this` are embedded as functions returning the
  post-state of the registry; a method that throws returns the error
  together with the (unchanged) post-state, mirroring that the TypeScript
  code throws before performing any mutation.
-/

/-- Result/world pair of one constructor invocation: a TypeScript factory
`() => T` either returns a value or throws, and may touch external state. -/
def FactoryFun (V σ E : Type) : Type := σ → Except E V × σ

/-- Lookup in a JS `Map` (`Map.prototype.get`, `none` models `undefined`). -/
def mapLookup {α : Type} (m : List (String × α)) (k : String) : Option α :=
  match m with
  | [] => none
  | (k₁, v₁) :: rest => if k₁ = k then some v₁ else mapLookup rest k

/-- `Map.prototype.has`. -/
def mapHas {α : Type} (m : List (String × α)) (k : String) : Bool :=
  (mapLookup m k).isSome

/-- `Map.prototype.set`: replace the entry in place if the key is present,
otherwise append a new entry. -/
def mapSet {α : Type} (m : List (String × α)) (k : String) (v : α) :
    List (String × α) :=
  match m with
  | [] => [(k, v)]
  | (k₁, v₁) :: rest =>
    if k₁ = k then (k, v) :: rest else (k₁, v₁) :: mapSet rest k v

/-- `Map.prototype.delete`: remove the entry for `k` (reachable maps have
unique keys, so removing every occurrence is the same as removing the one
entry). -/
def mapDelete {α : Type} (m : List (String × α)) (k : String) :
    List (String × α) :=
  m.filter (fun p => p.1 ≠ k)

/-- `sub` occurs as a contiguous substring of `s`. -/
def strContains (s sub : String) : Prop :=
  ∃ p q : List Char, s.data = p ++ sub.data ++ q

namespace LocatorService

/-- The state of a `LocatorService` instance: the three private `Map`s
(`singletons`, `lazySingletonFactories`, `factories`), parametric in the
value type `V`, the external world `σ` touched by constructor functions,
and the error type `E` a constructor may throw. -/
@[ext]
structure Registry (V σ E : Type) where
  singletons : List (String × V)
  lazySingletonFactories : List (String × FactoryFun V σ E)
  factories : List (String × FactoryFun V σ E)

/-- `new LocatorService()`: all three maps empty. -/
def registryInit (V σ E : Type) : Registry V σ E :=
  { singletons := [], lazySingletonFactories := [], factories := [] }

/-- `isRegistered`: true if the key is present in any of the three maps. -/
def isRegistered {V σ E : Type} (r : Registry V σ E) (k : String) : Bool :=
  mapHas r.singletons k || mapHas r.lazySingletonFactories k ||
    mapHas r.factories k

/-- Message of the error thrown on a duplicate registration. -/
def duplicateMsg (key : String) : String :=
  "Service with key \"" ++ key ++ "\" is already registered"

/-- Message of the error thrown by `get` on an unregistered key (the three
string literals concatenated exactly as in the source). -/
def notRegisteredMsg (key : String) : String :=
  "Service with key \"" ++ key ++ "\" is not registered. " ++
    "Make sure to register it using registerSingleton(), registerLazySingleton(), or registerFactory() " ++
    "before attempting to access it."

/-- `registerSingleton(key, instance)`: throws if the key is registered
under any kind, otherwise stores the value in `singletons` and returns the
same value. The returned registry is the post-state (unchanged when the
call throws, since the code throws before mutating). -/
def registerSingleton {V σ E : Type} (r : Registry V σ E) (k : String)
    (v : V) : Except String V × Registry V σ E :=
  if isRegistered r k then
    (Except.error (duplicateMsg k), r)
  else
    (Except.ok v, { r with singletons := mapSet r.singletons k v })

/-- `registerLazySingleton(key, factory)`: throws if the key is registered
under any kind, otherwise stores the factory (without invoking it) in
`lazySingletonFactories`. -/
def registerLazySingleton {V σ E : Type} (r : Registry V σ E) (k : String)
    (f : FactoryFun V σ E) : Except String Unit × Registry V σ E :=
  if isRegistered r k then
    (Except.error (duplicateMsg k), r)
  else
    (Except.ok (),
      { r with lazySingletonFactories := mapSet r.lazySingletonFactories k f })

/-- `registerFactory(key, factory)`: throws if the key is registered under
any kind, otherwise stores the factory (without invoking it) in
`factories`. -/
def registerFactory {V σ E : Type} (r : Registry V σ E) (k : String)
    (f : FactoryFun V σ E) : Except String Unit × Registry V σ E :=
  if isRegistered r k then
    (Except.error (duplicateMsg k), r)
  else
    (Except.ok (), { r with factories := mapSet r.factories k f })

/-- What `get` can throw: the not-registered error (with its message) or an
error thrown by a constructor function, propagated unmodified. -/
inductive GetErr (E : Type) where
  | notRegistered (msg : String)
  | ctorThrew (e : E)
deriving DecidableEq

/-- `get(key)`: resolution in source order — `singletons`, then
`lazySingletonFactories` (invoke, store in `singletons`, delete the lazy
entry), then `factories` (invoke, no mutation), else throw. Returns the
result together with the post-state of the registry and of the world. -/
def get {V σ E : Type} (r : Registry V σ E) (k : String) (s : σ) :
    Except (GetErr E) V × Registry V σ E × σ :=
  match mapLookup r.singletons k with
  | some v => (Except.ok v, r, s)
  | none =>
    match mapLookup r.lazySingletonFactories k with
    | some f =>
      match f s with
      | (Except.ok v, s₁) =>
        (Except.ok v,
          { r with
              singletons := mapSet r.singletons k v,
              lazySingletonFactories :=
                mapDelete r.lazySingletonFactories k },
          s₁)
      | (Except.error e, s₁) => (Except.error (GetErr.ctorThrew e), r, s₁)
    | none =>
      match mapLookup r.factories k with
      | some f =>
        match f s with
        | (Except.ok v, s₁) => (Except.ok v, r, s₁)
        | (Except.error e, s₁) => (Except.error (GetErr.ctorThrew e), r, s₁)
      | none => (Except.error (GetErr.notRegistered (notRegisteredMsg k)), r, s)

/-- `unregister(key)`: delete the key from all three maps. -/
def unregister {V σ E : Type} (r : Registry V σ E) (k : String) :
    Registry V σ E :=
  { singletons := mapDelete r.singletons k,
    lazySingletonFactories := mapDelete r.lazySingletonFactories k,
    factories := mapDelete r.factories k }

/-- `reset()`: clear all three maps. -/
def reset {V σ E : Type} (_ : Registry V σ E) : Registry V σ E :=
  registryInit V σ E

/-- The registry after the lazy-to-singleton promotion of key `k` with
constructed value `v` (the mutation performed by branch 2 of `get`). -/
def promoteReg {V σ E : Type} (r : Registry V σ E) (k : String) (v : V) :
    Registry V σ E :=
  { r with
      singletons := mapSet r.singletons k v,
      lazySingletonFactories := mapDelete r.lazySingletonFactories k }

/-- One client-visible operation of the container. -/
inductive Op (V σ E : Type) where
  | opRegisterSingleton (k : String) (v : V)
  | opRegisterLazySingleton (k : String) (f : FactoryFun V σ E)
  | opRegisterFactory (k : String) (f : FactoryFun V σ E)
  | opGet (k : String)
  | opIsRegistered (k : String)
  | opUnregister (k : String)
  | opReset

/-- Run one operation on (registry, world), keeping only the post-state
(a register call that throws or a `get` that throws leaves the registry as
the operation left it, per the embedding of each method). -/
def applyOp {V σ E : Type} (st : Registry V σ E × σ) (op : Op V σ E) :
    Registry V σ E × σ :=
  match op with
  | Op.opRegisterSingleton k v => ((registerSingleton st.1 k v).2, st.2)
  | Op.opRegisterLazySingleton k f => ((registerLazySingleton st.1 k f).2, st.2)
  | Op.opRegisterFactory k f => ((registerFactory st.1 k f).2, st.2)
  | Op.opGet k => (get st.1 k st.2).2
  | Op.opIsRegistered _ => st
  | Op.opUnregister k => (unregister st.1 k, st.2)
  | Op.opReset => (reset st.1, st.2)

/-- Run a sequence of operations from a starting state. -/
def applyOps {V σ E : Type} (st : Registry V σ E × σ)
    (ops : List (Op V σ E)) : Registry V σ E × σ :=
  ops.foldl applyOp st

/-- Each key is contained in at most one of the three mappings. -/
def DisjointKeys {V σ E : Type} (r : Registry V σ E) : Prop :=
  ∀ k : String,
    (mapHas r.singletons k && mapHas r.lazySingletonFactories k) = false ∧
      (mapHas r.singletons k && mapHas r.factories k) = false ∧
      (mapHas r.lazySingletonFactories k && mapHas r.factories k) = false

/-- `n` successive `get(k)` calls, collecting the `n` results and threading
the registry and the world through each call. -/
def getRep {V σ E : Type} :
    Registry V σ E → String → σ → Nat →
      List (Except (GetErr E) V) × Registry V σ E × σ
  | r, _, s, 0 => ([], r, s)
  | r, k, s, n + 1 =>
    let one := get r k s
    let rest := getRep one.2.1 k one.2.2 n
    (one.1 :: rest.1, rest.2)

/-- Sample constructor that always succeeds with value 42 and bumps an
invocation counter. -/
def fLazyEx : FactoryFun Nat Nat String := fun s => (Except.ok 42, s + 1)

/-- Sample constructor that returns the current counter as its (therefore
fresh) value and bumps the counter. -/
def fFactEx : FactoryFun Nat Nat String := fun s => (Except.ok s, s + 1)

/-- Sample constructor that throws on its first invocation and succeeds
afterwards. -/
def fFailEx : FactoryFun Nat Nat String := fun s =>
  if s = 0 then (Except.error "boom", 1) else (Except.ok 99, s + 1)

/-- Sample registry holding one singleton. -/
def rSingEx : Registry Nat Nat String :=
  { singletons := [("a", 5)], lazySingletonFactories := [], factories := [] }

/-- Sample registry holding one lazy singleton. -/
def rLazyEx : Registry Nat Nat String :=
  { singletons := [], lazySingletonFactories := [("b", fLazyEx)],
    factories := [] }

/-- Sample registry holding one factory. -/
def rFactEx : Registry Nat Nat String :=
  { singletons := [], lazySingletonFactories := [],
    factories := [("c", fFactEx)] }

/-- Sample registry holding one lazy singleton whose constructor throws on
first invocation. -/
def rFailEx : Registry Nat Nat String :=
  { singletons := [], lazySingletonFactories := [("b", fFailEx)],
    factories := [] }

end LocatorService

theorem string_data_append (a b : String) : (a ++ b).data = a.data ++ b.data :=
  rfl

theorem mapLookup_set_self {α : Type} (m : List (String × α)) (k : String)
    (v : α) : mapLookup (mapSet m k v) k = some v := by
  induction m with
  | nil => simp [mapSet, mapLookup]
  | cons p rest ih =>
    obtain ⟨k₁, v₁⟩ := p
    by_cases h : k₁ = k <;> simp [mapSet, mapLookup, h, ih]

theorem mapLookup_set_ne {α : Type} (m : List (String × α)) {k k' : String}
    (h : k' ≠ k) (v : α) : mapLookup (mapSet m k v) k' = mapLookup m k' := by
  have h' : ¬ k = k' := fun e => h e.symm
  induction m with
  | nil => simp [mapSet, mapLookup, h']
  | cons p rest ih =>
    obtain ⟨k₁, v₁⟩ := p
    by_cases h₁ : k₁ = k
    · subst h₁
      simp [mapSet, mapLookup, h']
    · simp [mapSet, mapLookup, h₁, ih]

theorem mapLookup_delete_self {α : Type} (m : List (String × α))
    (k : String) : mapLookup (mapDelete m k) k = none := by
  induction m with
  | nil => simp [mapDelete, mapLookup]
  | cons p rest ih =>
    obtain ⟨k₁, v₁⟩ := p
    by_cases h : k₁ = k <;>
      simp_all [mapDelete, mapLookup, List.filter]

theorem mapLookup_delete_ne {α : Type} (m : List (String × α)) {k k' : String}
    (h : k' ≠ k) : mapLookup (mapDelete m k) k' = mapLookup m k' := by
  induction m with
  | nil => simp [mapDelete, mapLookup]
  | cons p rest ih =>
    obtain ⟨k₁, v₁⟩ := p
    have h' : ¬ k = k' := fun e => h e.symm
    by_cases h₁ : k₁ = k
    · subst h₁
      simp_all [mapDelete, mapLookup, List.filter]
    · by_cases h₂ : k₁ = k' <;> simp_all [mapDelete, mapLookup, List.filter]

theorem mapDelete_of_lookup_none {α : Type} (m : List (String × α))
    {k : String} (h : mapLookup m k = none) : mapDelete m k = m := by
  induction m with
  | nil => rfl
  | cons p rest ih =>
    obtain ⟨k₁, v₁⟩ := p
    by_cases h₁ : k₁ = k
    · simp [mapLookup, h₁] at h
    · simp [mapLookup, h₁] at h
      simp [mapDelete, List.filter, h₁] at ih ⊢
      exact ih h

theorem mapDelete_idem {α : Type} (m : List (String × α)) (k : String) :
    mapDelete (mapDelete m k) k = mapDelete m k :=
  mapDelete_of_lookup_none _ (mapLookup_delete_self m k)

theorem mapHas_set_self {α : Type} (m : List (String × α)) (k : String)
    (v : α) : mapHas (mapSet m k v) k = true := by
  simp [mapHas, mapLookup_set_self]

theorem mapHas_set_ne {α : Type} (m : List (String × α)) {k k' : String}
    (h : k' ≠ k) (v : α) : mapHas (mapSet m k v) k' = mapHas m k' := by
  simp [mapHas, mapLookup_set_ne m h]

theorem mapHas_delete_self {α : Type} (m : List (String × α)) (k : String) :
    mapHas (mapDelete m k) k = false := by
  simp [mapHas, mapLookup_delete_self]

theorem mapHas_delete_ne {α : Type} (m : List (String × α)) {k k' : String}
    (h : k' ≠ k) : mapHas (mapDelete m k) k' = mapHas m k' := by
  simp [mapHas, mapLookup_delete_ne m h]

theorem mapHas_false_lookup {α : Type} {m : List (String × α)} {k : String}
    (h : mapHas m k = false) : mapLookup m k = none := by
  cases hm : mapLookup m k <;> simp_all [mapHas]

theorem strContains_middle (p mid q : String) :
    strContains (p ++ mid ++ q) mid :=
  ⟨p.data, q.data, by simp [strContains, string_data_append]⟩

theorem strContains_append_left (p : String) {s sub : String}
    (h : strContains s sub) : strContains (p ++ s) sub := by
  obtain ⟨x, y, hxy⟩ := h
  exact ⟨p.data ++ x, y, by simp [string_data_append, hxy]⟩

theorem strContains_append_right (q : String) {s sub : String}
    (h : strContains s sub) : strContains (s ++ q) sub := by
  obtain ⟨x, y, hxy⟩ := h
  exact ⟨x, y ++ q.data, by simp [string_data_append, hxy]⟩

namespace LocatorService

theorem isRegistered_eq_false {V σ E : Type} {r : Registry V σ E}
    {k : String} (h : isRegistered r k = false) :
    mapHas r.singletons k = false ∧
      mapHas r.lazySingletonFactories k = false ∧
      mapHas r.factories k = false := by
  have h' := h
  simp [isRegistered] at h'
  exact ⟨h'.1.1, h'.1.2, h'.2⟩

theorem get_singleton_branch {V σ E : Type} {r : Registry V σ E} {k : String}
    {v : V} (h : mapLookup r.singletons k = some v) (s : σ) :
    get r k s = (Except.ok v, r, s) := by
  simp [LocatorService.get, h]

theorem get_lazy_ok_branch {V σ E : Type} {r : Registry V σ E} {k : String}
    {f : FactoryFun V σ E} {v : V} {s s₁ : σ}
    (h₀ : mapLookup r.singletons k = none)
    (h₁ : mapLookup r.lazySingletonFactories k = some f)
    (hf : f s = (Except.ok v, s₁)) :
    get r k s = (Except.ok v, promoteReg r k v, s₁) := by
  simp [LocatorService.get, h₀, h₁, hf, promoteReg]

theorem get_lazy_err_branch {V σ E : Type} {r : Registry V σ E} {k : String}
    {f : FactoryFun V σ E} {e : E} {s s₁ : σ}
    (h₀ : mapLookup r.singletons k = none)
    (h₁ : mapLookup r.lazySingletonFactories k = some f)
    (hf : f s = (Except.error e, s₁)) :
    get r k s = (Except.error (GetErr.ctorThrew e), r, s₁) := by
  simp [LocatorService.get, h₀, h₁, hf]

theorem get_factory_ok_branch {V σ E : Type} {r : Registry V σ E}
    {k : String} {f : FactoryFun V σ E} {v : V} {s s₁ : σ}
    (h₀ : mapLookup r.singletons k = none)
    (h₁ : mapLookup r.lazySingletonFactories k = none)
    (h₂ : mapLookup r.factories k = some f)
    (hf : f s = (Except.ok v, s₁)) :
    get r k s = (Except.ok v, r, s₁) := by
  simp [LocatorService.get, h₀, h₁, h₂, hf]

theorem get_factory_err_branch {V σ E : Type} {r : Registry V σ E}
    {k : String} {f : FactoryFun V σ E} {e : E} {s s₁ : σ}
    (h₀ : mapLookup r.singletons k = none)
    (h₁ : mapLookup r.lazySingletonFactories k = none)
    (h₂ : mapLookup r.factories k = some f)
    (hf : f s = (Except.error e, s₁)) :
    get r k s = (Except.error (GetErr.ctorThrew e), r, s₁) := by
  simp [LocatorService.get, h₀, h₁, h₂, hf]

theorem get_missing_branch {V σ E : Type} {r : Registry V σ E} {k : String}
    (h₀ : mapLookup r.singletons k = none)
    (h₁ : mapLookup r.lazySingletonFactories k = none)
    (h₂ : mapLookup r.factories k = none) (s : σ) :
    get r k s = (Except.error (GetErr.notRegistered (notRegisteredMsg k)), r, s) := by
  simp [LocatorService.get, h₀, h₁, h₂]

theorem disjoint_registerSingleton {V σ E : Type} {r : Registry V σ E}
    (hd : DisjointKeys r) (k : String) (v : V) :
    DisjointKeys (registerSingleton r k v).2 := by
  by_cases hreg : isRegistered r k
  · simpa [registerSingleton, hreg] using hd
  · rw [Bool.not_eq_true] at hreg
    obtain ⟨h₁, h₂, h₃⟩ := isRegistered_eq_false hreg
    intro k'
    by_cases hk : k' = k
    · subst hk
      simp [registerSingleton, hreg, mapHas_set_self, h₂, h₃]
    · have := hd k'
      simpa [registerSingleton, hreg, mapHas_set_ne _ hk] using this

theorem disjoint_registerLazySingleton {V σ E : Type} {r : Registry V σ E}
    (hd : DisjointKeys r) (k : String) (f : FactoryFun V σ E) :
    DisjointKeys (registerLazySingleton r k f).2 := by
  by_cases hreg : isRegistered r k
  · simpa [registerLazySingleton, hreg] using hd
  · rw [Bool.not_eq_true] at hreg
    obtain ⟨h₁, h₂, h₃⟩ := isRegistered_eq_false hreg
    intro k'
    by_cases hk : k' = k
    · subst hk
      simp [registerLazySingleton, hreg, mapHas_set_self, h₁, h₃]
    · have := hd k'
      simpa [registerLazySingleton, hreg, mapHas_set_ne _ hk] using this

theorem disjoint_registerFactory {V σ E : Type} {r : Registry V σ E}
    (hd : DisjointKeys r) (k : String) (f : FactoryFun V σ E) :
    DisjointKeys (registerFactory r k f).2 := by
  by_cases hreg : isRegistered r k
  · simpa [registerFactory, hreg] using hd
  · rw [Bool.not_eq_true] at hreg
    obtain ⟨h₁, h₂, h₃⟩ := isRegistered_eq_false hreg
    intro k'
    by_cases hk : k' = k
    · subst hk
      simp [registerFactory, hreg, mapHas_set_self, h₁, h₂]
    · have := hd k'
      simpa [registerFactory, hreg, mapHas_set_ne _ hk] using this

theorem disjoint_promoteReg {V σ E : Type} {r : Registry V σ E}
    (hd : DisjointKeys r) {k : String}
    (hlz : mapHas r.lazySingletonFactories k = true) (v : V) :
    DisjointKeys (promoteReg r k v) := by
  have hfac : mapHas r.factories k = false := by
    have := (hd k).2.2
    rw [hlz] at this
    simpa using this
  intro k'
  by_cases hk : k' = k
  · subst hk
    simp [promoteReg, mapHas_set_self, mapHas_delete_self, hfac]
  · have := hd k'
    simpa [promoteReg, mapHas_set_ne _ hk, mapHas_delete_ne _ hk] using this

theorem disjoint_get {V σ E : Type} {r : Registry V σ E}
    (hd : DisjointKeys r) (k : String) (s : σ) :
    DisjointKeys (get r k s).2.1 := by
  cases hs : mapLookup r.singletons k with
  | some v => rw [get_singleton_branch hs]; exact hd
  | none =>
    cases hlz : mapLookup r.lazySingletonFactories k with
    | some f =>
      rcases hf : f s with ⟨res, s₁⟩
      cases res with
      | ok v =>
        rw [get_lazy_ok_branch hs hlz hf]
        exact disjoint_promoteReg hd (by simp [mapHas, hlz]) v
      | error e => rw [get_lazy_err_branch hs hlz hf]; exact hd
    | none =>
      cases hfc : mapLookup r.factories k with
      | some f =>
        rcases hf : f s with ⟨res, s₁⟩
        cases res with
        | ok v => rw [get_factory_ok_branch hs hlz hfc hf]; exact hd
        | error e => rw [get_factory_err_branch hs hlz hfc hf]; exact hd
      | none => rw [get_missing_branch hs hlz hfc]; exact hd

theorem disjoint_unregister {V σ E : Type} {r : Registry V σ E}
    (hd : DisjointKeys r) (k : String) :
    DisjointKeys (unregister r k) := by
  intro k'
  by_cases hk : k' = k
  · subst hk
    simp [unregister, mapHas_delete_self]
  · have := hd k'
    simpa [unregister, mapHas_delete_ne _ hk] using this

theorem disjoint_applyOp {V σ E : Type} {st : Registry V σ E × σ}
    (hd : DisjointKeys st.1) (op : Op V σ E) :
    DisjointKeys (applyOp st op).1 := by
  cases op with
  | opRegisterSingleton k v => exact disjoint_registerSingleton hd k v
  | opRegisterLazySingleton k f => exact disjoint_registerLazySingleton hd k f
  | opRegisterFactory k f => exact disjoint_registerFactory hd k f
  | opGet k => exact disjoint_get hd k st.2
  | opIsRegistered k => exact hd
  | opUnregister k => exact disjoint_unregister hd k
  | opReset => intro k'; simp [applyOp, reset, registryInit, mapHas, mapLookup]

theorem disjoint_applyOps {V σ E : Type} {st : Registry V σ E × σ}
    (hd : DisjointKeys st.1) (ops : List (Op V σ E)) :
    DisjointKeys (applyOps st ops).1 := by
  induction ops generalizing st with
  | nil => exact hd
  | cons op rest ih => exact ih (disjoint_applyOp hd op)

theorem disjoint_registryInit (V σ E : Type) :
    DisjointKeys (registryInit V σ E) := by
  intro k
  simp [registryInit, mapHas, mapLookup]

theorem getRep_singleton_hit {V σ E : Type} {r : Registry V σ E} {k : String}
    {v : V} (h : mapLookup r.singletons k = some v) (s : σ) (n : Nat) :
    getRep r k s n = (List.replicate n (Except.ok v), r, s) := by
  induction n with
  | zero => simp [getRep]
  | succ m ih =>
    simp [getRep, get_singleton_branch h, ih, List.replicate_succ]

theorem notRegisteredMsg_has_key (k : String) :
    strContains (notRegisteredMsg k) k := by
  have h := strContains_middle "Service with key \"" k
    ("\" is not registered. " ++
      "Make sure to register it using registerSingleton(), registerLazySingleton(), or registerFactory() " ++
      "before attempting to access it.")
  obtain ⟨x, y, hxy⟩ := h
  exact ⟨x, y, by simp_all [notRegisteredMsg, string_data_append]⟩

theorem notRegisteredMsg_names_ops (k : String) :
    strContains (notRegisteredMsg k) "registerSingleton()" ∧
      strContains (notRegisteredMsg k) "registerLazySingleton()" ∧
      strContains (notRegisteredMsg k) "registerFactory()" := by
  have h₁ : strContains
      "Make sure to register it using registerSingleton(), registerLazySingleton(), or registerFactory() "
      "registerSingleton()" :=
    ⟨"Make sure to register it using ".data,
      ", registerLazySingleton(), or registerFactory() ".data, by decide⟩
  have h₂ : strContains
      "Make sure to register it using registerSingleton(), registerLazySingleton(), or registerFactory() "
      "registerLazySingleton()" :=
    ⟨"Make sure to register it using registerSingleton(), ".data,
      ", or registerFactory() ".data, by decide⟩
  have h₃ : strContains
      "Make sure to register it using registerSingleton(), registerLazySingleton(), or registerFactory() "
      "registerFactory()" :=
    ⟨"Make sure to register it using registerSingleton(), registerLazySingleton(), or ".data,
      " ".data, by decide⟩
  refine ⟨?_, ?_, ?_⟩ <;>
    · first
      | exact strContains_append_right _
          (strContains_append_left ("Service with key \"" ++ k ++ "\" is not registered. ") h₁)
      | exact strContains_append_right _
          (strContains_append_left ("Service with key \"" ++ k ++ "\" is not registered. ") h₂)
      | exact strContains_append_right _
          (strContains_append_left ("Service with key \"" ++ k ++ "\" is not registered. ") h₃)

end LocatorService

namespace LocatorService

/-- Claim C1: for every registry state and key `k`, `get(k)` resolves in
this exact order — a stored singleton is returned as-is; else a lazy
factory is invoked, promoted into `singletons` and its value returned;
else a plain factory is invoked and its fresh value returned; else the
not-registered error is thrown, whose message contains the exact key and
names the three registration operations. -/
theorem get_resolution_order {V σ E : Type} (r : Registry V σ E)
    (k : String) (s : σ) :
    (∀ v : V, mapLookup r.singletons k = some v →
      get r k s = (Except.ok v, r, s)) ∧
    (mapLookup r.singletons k = none →
      ∀ f : FactoryFun V σ E, mapLookup r.lazySingletonFactories k = some f →
        ∀ (v : V) (s₁ : σ), f s = (Except.ok v, s₁) →
          get r k s = (Except.ok v, promoteReg r k v, s₁)) ∧
    (mapLookup r.singletons k = none →
      mapLookup r.lazySingletonFactories k = none →
      ∀ f : FactoryFun V σ E, mapLookup r.factories k = some f →
        ∀ (v : V) (s₁ : σ), f s = (Except.ok v, s₁) →
          get r k s = (Except.ok v, r, s₁)) ∧
    (mapLookup r.singletons k = none →
      mapLookup r.lazySingletonFactories k = none →
      mapLookup r.factories k = none →
      get r k s =
        (Except.error (GetErr.notRegistered (notRegisteredMsg k)), r, s) ∧
      strContains (notRegisteredMsg k) k ∧
      strContains (notRegisteredMsg k) "registerSingleton()" ∧
      strContains (notRegisteredMsg k) "registerLazySingleton()" ∧
      strContains (notRegisteredMsg k) "registerFactory()") := by
  refine ⟨?_, ?_, ?_, ?_⟩
  · intro v h
    exact get_singleton_branch h s
  · intro h₀ f h₁ v s₁ hf
    exact get_lazy_ok_branch h₀ h₁ hf
  · intro h₀ h₁ f h₂ v s₁ hf
    exact get_factory_ok_branch h₀ h₁ h₂ hf
  · intro h₀ h₁ h₂
    obtain ⟨o₁, o₂, o₃⟩ := notRegisteredMsg_names_ops k
    exact ⟨get_missing_branch h₀ h₁ h₂ s, notRegisteredMsg_has_key k, o₁, o₂, o₃⟩

theorem get_resolution_order_witness :
    get rSingEx "a" 0 = (Except.ok 5, rSingEx, 0) ∧
    get rLazyEx "b" 0 = (Except.ok 42, promoteReg rLazyEx "b" 42, 1) ∧
    get rFactEx "c" 7 = (Except.ok 7, rFactEx, 8) ∧
    get (registryInit Nat Nat String) "missing" 0 =
      (Except.error (GetErr.notRegistered (notRegisteredMsg "missing")),
        registryInit Nat Nat String, 0) ∧
    strContains (notRegisteredMsg "missing") "missing" := by
  refine ⟨?_, ?_, ?_, ?_, ?_⟩
  · exact (get_resolution_order rSingEx "a" 0).1 5 rfl
  · exact (get_resolution_order rLazyEx "b" 0).2.1 rfl fLazyEx rfl 42 1 rfl
  · exact (get_resolution_order rFactEx "c" 7).2.2.1 rfl rfl fFactEx rfl 7 8 rfl
  · exact ((get_resolution_order (registryInit Nat Nat String) "missing" 0).2.2.2
      rfl rfl rfl).1
  · exact ((get_resolution_order (registryInit Nat Nat String) "missing" 0).2.2.2
      rfl rfl rfl).2.1

/-- Claim C3: when key `k` is already registered under any of the three
kinds, each of the three registration operations throws the duplicate-key
error and leaves the registry state exactly as it was (no partial
mutation). -/
theorem duplicate_registration_rejected {V σ E : Type} (r : Registry V σ E)
    (k : String) (hreg : isRegistered r k = true) (v : V)
    (f g : FactoryFun V σ E) :
    registerSingleton r k v = (Except.error (duplicateMsg k), r) ∧
    registerLazySingleton r k f = (Except.error (duplicateMsg k), r) ∧
    registerFactory r k g = (Except.error (duplicateMsg k), r) := by
  simp [registerSingleton, registerLazySingleton, registerFactory, hreg]

theorem duplicate_registration_rejected_witness :
    registerSingleton rSingEx "a" 7 =
      (Except.error (duplicateMsg "a"), rSingEx) ∧
    registerLazySingleton rSingEx "a" fLazyEx =
      (Except.error (duplicateMsg "a"), rSingEx) ∧
    registerFactory rSingEx "a" fFactEx =
      (Except.error (duplicateMsg "a"), rSingEx) :=
  duplicate_registration_rejected rSingEx "a" (by decide) 7 fLazyEx fFactEx

/-- Claim C8: `reset()` empties all three mappings, returning the registry
to the initial post-creation state, and afterwards `isRegistered` is false
for every key; `reset` is a total function (it never throws). -/
theorem reset_returns_to_init {V σ E : Type} (r : Registry V σ E) :
    reset r = registryInit V σ E ∧
      ∀ k : String, isRegistered (reset r) k = false :=
  ⟨rfl, fun _ => by simp [reset, registryInit, isRegistered, mapHas, mapLookup]⟩

/-- Claim C9: for an unregistered key, `registerSingleton(k, v)` returns
the same value `v`, afterwards `isRegistered(k)` is true, and any number of
subsequent `get(k)` calls all return exactly `v` without changing the
registry or the world. -/
theorem registerSingleton_roundtrip {V σ E : Type} (r : Registry V σ E)
    (k : String) (v : V) (hreg : isRegistered r k = false) :
    (registerSingleton r k v).1 = Except.ok v ∧
    isRegistered (registerSingleton r k v).2 k = true ∧
    ∀ (s : σ) (n : Nat),
      getRep (registerSingleton r k v).2 k s n =
        (List.replicate n (Except.ok v), (registerSingleton r k v).2, s) := by
  rw [Bool.eq_false_iff] at hreg
  have hlook : mapLookup (registerSingleton r k v).2.singletons k = some v := by
    simp [registerSingleton, hreg, mapLookup_set_self]
  refine ⟨by simp [registerSingleton, hreg], ?_, ?_⟩
  · simp [isRegistered, mapHas, hlook]
  · intro s n
    exact getRep_singleton_hit hlook s n

theorem registerSingleton_roundtrip_witness :
    (registerSingleton (registryInit Nat Nat String) "a" 5).1 = Except.ok 5 ∧
    isRegistered (registerSingleton (registryInit Nat Nat String) "a" 5).2 "a"
      = true ∧
    getRep (registerSingleton (registryInit Nat Nat String) "a" 5).2 "a" 0 2 =
      (List.replicate 2 (Except.ok 5),
        (registerSingleton (registryInit Nat Nat String) "a" 5).2, 0) := by
  obtain ⟨h₁, h₂, h₃⟩ :=
    registerSingleton_roundtrip (registryInit Nat Nat String) "a" 5 (by decide)
  exact ⟨h₁, h₂, h₃ 0 2⟩

end LocatorService

namespace LocatorService

/-- Claim C2: every registry state reachable from the initial (empty)
state by any sequence of the public operations keeps the three mappings
disjoint on keys: each key is in at most one of `singletons`,
`lazySingletonFactories` and `factories`. -/
theorem disjoint_all_reachable_states {V σ E : Type} (s₀ : σ)
    (ops : List (Op V σ E)) :
    DisjointKeys (applyOps (registryInit V σ E, s₀) ops).1 :=
  disjoint_applyOps (disjoint_registryInit V σ E) ops

/-- Claim C4: registering a lazy singleton stores the constructor without
invoking it (the registration only writes `lazySingletonFactories`; the
world `σ` is untouched as registration has no access to it), and across
`n + 1` subsequent `get(k)` calls the constructor runs exactly once (the
final world is `s₁`, the world after the single invocation from `s`),
every call returns the identical value `v`, and `isRegistered(k)` is true
after the first `get(k)` promoted the key. -/
theorem lazySingleton_constructed_once {V σ E : Type} (r : Registry V σ E)
    (k : String) (f : FactoryFun V σ E) (v : V) (s s₁ : σ)
    (hreg : isRegistered r k = false) (hf : f s = (Except.ok v, s₁)) :
    (registerLazySingleton r k f).2 =
      { r with lazySingletonFactories := mapSet r.lazySingletonFactories k f } ∧
    (∀ n : Nat,
      getRep (registerLazySingleton r k f).2 k s (n + 1) =
        (List.replicate (n + 1) (Except.ok v),
          promoteReg (registerLazySingleton r k f).2 k v, s₁)) ∧
    isRegistered (promoteReg (registerLazySingleton r k f).2 k v) k = true := by
  obtain ⟨hs, hl, hfc⟩ := isRegistered_eq_false hreg
  rw [Bool.eq_false_iff] at hreg
  have hA : (registerLazySingleton r k f).2 =
      { r with lazySingletonFactories := mapSet r.lazySingletonFactories k f } := by
    simp [registerLazySingleton, hreg]
  have hs' : mapLookup (registerLazySingleton r k f).2.singletons k = none := by
    rw [hA]; exact mapHas_false_lookup hs
  have hlz : mapLookup (registerLazySingleton r k f).2.lazySingletonFactories k
      = some f := by
    rw [hA]; exact mapLookup_set_self _ _ _
  have hget : get (registerLazySingleton r k f).2 k s =
      (Except.ok v, promoteReg (registerLazySingleton r k f).2 k v, s₁) :=
    get_lazy_ok_branch hs' hlz hf
  have hsing :
      mapLookup (promoteReg (registerLazySingleton r k f).2 k v).singletons k
        = some v := mapLookup_set_self _ _ _
  refine ⟨hA, ?_, ?_⟩
  · intro n
    simp [getRep, hget, getRep_singleton_hit hsing, List.replicate_succ]
  · simp [isRegistered, mapHas, hsing]

theorem lazySingleton_constructed_once_witness :
    getRep (registerLazySingleton (registryInit Nat Nat String) "b" fLazyEx).2
        "b" 0 2 =
      (List.replicate 2 (Except.ok 42),
        promoteReg (registerLazySingleton (registryInit Nat Nat String) "b"
          fLazyEx).2 "b" 42, 1) ∧
    isRegistered (promoteReg (registerLazySingleton
      (registryInit Nat Nat String) "b" fLazyEx).2 "b" 42) "b" = true := by
  obtain ⟨_, h₂, h₃⟩ := lazySingleton_constructed_once
    (registryInit Nat Nat String) "b" fLazyEx 42 0 1 (by decide) rfl
  exact ⟨h₂ 1, h₃⟩

/-- Claim C5: when the constructor of a lazy singleton throws on first
resolution, `get` re-throws that very error, the registry is unchanged
(the key is still in `lazySingletonFactories`, no promotion, no cached
failure), and a later `get(k)` retries construction and promotes on
success. -/
theorem lazySingleton_ctor_failure_propagates {V σ E : Type}
    (r : Registry V σ E) (k : String) (f : FactoryFun V σ E) (e : E)
    (s s₁ s₂ : σ) (v₂ : V)
    (h₀ : mapLookup r.singletons k = none)
    (h₁ : mapLookup r.lazySingletonFactories k = some f)
    (hf : f s = (Except.error e, s₁))
    (hretry : f s₁ = (Except.ok v₂, s₂)) :
    get r k s = (Except.error (GetErr.ctorThrew e), r, s₁) ∧
    mapLookup (get r k s).2.1.lazySingletonFactories k = some f ∧
    get (get r k s).2.1 k s₁ = (Except.ok v₂, promoteReg r k v₂, s₂) := by
  have hg := get_lazy_err_branch h₀ h₁ hf
  refine ⟨hg, ?_, ?_⟩
  · rw [hg]; exact h₁
  · rw [hg]; exact get_lazy_ok_branch h₀ h₁ hretry

theorem lazySingleton_ctor_failure_propagates_witness :
    get rFailEx "b" 0 = (Except.error (GetErr.ctorThrew "boom"), rFailEx, 1) ∧
    mapLookup (get rFailEx "b" 0).2.1.lazySingletonFactories "b"
      = some fFailEx ∧
    get (get rFailEx "b" 0).2.1 "b" 1 =
      (Except.ok 99, promoteReg rFailEx "b" 99, 2) :=
  lazySingleton_ctor_failure_propagates rFailEx "b" fFailEx "boom" 0 1 2 99
    rfl rfl rfl rfl

/-- Claim C6: on a key registered as a plain factory with an
invocation-counting constructor (world `σ = Nat` counts invocations; the
value is any function `mkv` of the count), `n` successive `get(k)` calls
invoke the constructor exactly `n` times (the counter ends at `c₀ + n`),
return the constructed values in invocation order, never mutate the
registry, and the returned values are pairwise distinct whenever `mkv` is
injective (freshness). -/
theorem factory_fresh_on_every_get {V E : Type} (r : Registry V Nat E)
    (k : String) (f : FactoryFun V Nat E) (mkv : Nat → V)
    (h₀ : mapLookup r.singletons k = none)
    (h₁ : mapLookup r.lazySingletonFactories k = none)
    (h₂ : mapLookup r.factories k = some f)
    (hf : ∀ c : Nat, f c = (Except.ok (mkv c), c + 1)) (c₀ n : Nat) :
    getRep r k c₀ n =
      ((List.range' c₀ n).map (fun c => Except.ok (mkv c)), r, c₀ + n) ∧
    (Function.Injective mkv → ((List.range' c₀ n).map mkv).Nodup) := by
  constructor
  · induction n generalizing c₀ with
    | zero => simp [getRep]
    | succ m ih =>
      have hg := get_factory_ok_branch h₀ h₁ h₂ (hf c₀)
      have ih' := ih (c₀ + 1)
      simp [getRep, hg, ih', List.range'_succ]
      omega
  · intro hinj
    exact (List.nodup_range' c₀ n).map hinj

theorem factory_fresh_on_every_get_witness :
    getRep rFactEx "c" 0 2 =
      ((List.range' 0 2).map (fun c => Except.ok c), rFactEx, 2) ∧
    ((List.range' 0 2).map (fun c : Nat => c)).Nodup := by
  obtain ⟨hA, hB⟩ := factory_fresh_on_every_get rFactEx "c" fFactEx
    (fun c => c) rfl rfl rfl (fun _ => rfl) 0 2
  exact ⟨hA, hB (fun _ _ h => h)⟩

/-- Claim C7: `unregister(k)` removes `k` from all three mappings, leaves
every other key's entries untouched, is idempotent, is a no-op on an
unregistered key, and is a total function (it never throws). -/
theorem unregister_removes_all_idempotent {V σ E : Type}
    (r : Registry V σ E) (k : String) :
    mapHas (unregister r k).singletons k = false ∧
    mapHas (unregister r k).lazySingletonFactories k = false ∧
    mapHas (unregister r k).factories k = false ∧
    (∀ k' : String, k' ≠ k →
      mapLookup (unregister r k).singletons k' = mapLookup r.singletons k' ∧
      mapLookup (unregister r k).lazySingletonFactories k'
        = mapLookup r.lazySingletonFactories k' ∧
      mapLookup (unregister r k).factories k' = mapLookup r.factories k') ∧
    unregister (unregister r k) k = unregister r k ∧
    (isRegistered r k = false → unregister r k = r) := by
  refine ⟨mapHas_delete_self _ _, mapHas_delete_self _ _,
    mapHas_delete_self _ _, ?_, ?_, ?_⟩
  · intro k' hk
    exact ⟨mapLookup_delete_ne _ hk, mapLookup_delete_ne _ hk,
      mapLookup_delete_ne _ hk⟩
  · simp [unregister, mapDelete_idem]
  · intro h
    obtain ⟨h₁, h₂, h₃⟩ := isRegistered_eq_false h
    simp [unregister, mapDelete_of_lookup_none _ (mapHas_false_lookup h₁),
      mapDelete_of_lookup_none _ (mapHas_false_lookup h₂),
      mapDelete_of_lookup_none _ (mapHas_false_lookup h₃)]

theorem unregister_removes_all_idempotent_witness :
    mapHas (unregister rSingEx "a").singletons "a" = false ∧
    mapLookup (unregister rSingEx "a").singletons "z"
      = mapLookup rSingEx.singletons "z" ∧
    unregister (unregister rSingEx "a") "a" = unregister rSingEx "a" ∧
    unregister rSingEx "zz" = rSingEx := by
  obtain ⟨h₁, _, _, h₄, h₅, _⟩ := unregister_removes_all_idempotent rSingEx "a"
  obtain ⟨_, _, _, _, _, h₆⟩ := unregister_removes_all_idempotent rSingEx "zz"
  exact ⟨h₁, (h₄ "z" (by decide)).1, h₅, h₆ (by decide)⟩

/-- Claim C10: registration never validates the key's content — for any
string key (the witness instantiates the empty string) that is not yet
registered, all three registration operations succeed (the duplicate-key
branch is their only error branch), and the key then behaves like any
other key under `get`, `isRegistered` and `unregister`. -/
theorem register_accepts_any_key {V σ E : Type} (r : Registry V σ E)
    (k : String) (v : V) (f g : FactoryFun V σ E)
    (hreg : isRegistered r k = false) :
    (registerSingleton r k v).1 = Except.ok v ∧
    (registerLazySingleton r k f).1 = Except.ok () ∧
    (registerFactory r k g).1 = Except.ok () ∧
    isRegistered (registerSingleton r k v).2 k = true ∧
    (∀ s : σ, get (registerSingleton r k v).2 k s =
      (Except.ok v, (registerSingleton r k v).2, s)) ∧
    isRegistered (unregister (registerSingleton r k v).2 k) k = false := by
  rw [Bool.eq_false_iff] at hreg
  have hlook : mapLookup (registerSingleton r k v).2.singletons k = some v := by
    simp [registerSingleton, hreg, mapLookup_set_self]
  refine ⟨by simp [registerSingleton, hreg],
    by simp [registerLazySingleton, hreg],
    by simp [registerFactory, hreg],
    by simp [isRegistered, mapHas, hlook], ?_, ?_⟩
  · intro s
    exact get_singleton_branch hlook s
  · simp [isRegistered, unregister, mapHas_delete_self]

theorem register_accepts_any_key_witness :
    (registerSingleton (registryInit Nat Nat String) "" 9).1 = Except.ok 9 ∧
    (registerLazySingleton (registryInit Nat Nat String) "" fLazyEx).1
      = Except.ok () ∧
    (registerFactory (registryInit Nat Nat String) "" fFactEx).1
      = Except.ok () ∧
    isRegistered (registerSingleton (registryInit Nat Nat String) "" 9).2 ""
      = true ∧
    get (registerSingleton (registryInit Nat Nat String) "" 9).2 "" 0 =
      (Except.ok 9, (registerSingleton (registryInit Nat Nat String) "" 9).2,
        0) ∧
    isRegistered
      (unregister (registerSingleton (registryInit Nat Nat String) "" 9).2 "")
      "" = false := by
  obtain ⟨h₁, h₂, h₃, h₄, h₅, h₆⟩ := register_accepts_any_key
    (registryInit Nat Nat String) "" 9 fLazyEx fFactEx rfl
  exact ⟨h₁, h₂, h₃, h₄, h₅ 0, h₆⟩

end LocatorService
